import Mathlib

/-!
Shallow embedding of `src/script.js` (SWDatabase): the codex
visibility & search resolver, the localStorage-backed unlock toggle,
the entry repository (`loadCategoryEntries`) and the destiny-pool
state machine, together with theorems checking the claims of the specification about them.
-/

/-! ## Local key-value store (localStorage) -/

/-- Model of the browser local key-value store, modelled as an association list
of string keys to string values (no duplicate keys by construction of
the operations below). -/
abbrev Store := List (String × String)

/-- Models `localStorage.getItem(k)`: the stored value, or `none` when absent. -/
def getItem (s : Store) (k : String) : Option String :=
  (List.find? (fun p => p.1 == k) s).map (fun p => p.2)

/-- Models `localStorage.removeItem(k)`. -/
def removeItem (s : Store) (k : String) : Store :=
  List.filter (fun p => !(p.1 == k)) s

/-- Models `localStorage.setItem(k, v)` (replaces any previous binding of `k`). -/
def setItem (s : Store) (k v : String) : Store :=
  removeItem s k ++ [(k, v)]

/-- Models `const lsKey = id => entry_unlocked__id` (script.js line 44). -/
def lsKey (id : String) : String := "entry_unlocked__" ++ id

/-- The unlock read used by both renderers (script.js lines 165, 298):
`localStorage.getItem(lsKey(entry.id)) === "true"`. -/
def isUnlocked (s : Store) (id : String) : Bool :=
  getItem s (lsKey id) == some "true"

/-- The two branches of the unlock toggle (script.js lines 202-206): setting
true stores the literal string `"true"`, setting false removes the key. -/
def setUnlocked (s : Store) (id : String) (b : Bool) : Store :=
  if b then setItem s (lsKey id) "true" else removeItem s (lsKey id)

/-! ## Entries and the visibility & search resolver -/

/-- A codex entry as consumed by the renderers: `id`, `name`,
optional `description`, `gmMode` flag and the loader-injected
`category`. -/
structure Entry where
  id : String
  name : String
  description : Option String
  gmMode : Bool
  category : String
deriving DecidableEq, Repr

/-- Models `needle` occurs as a leading block of `hay` (char-list version of
JavaScript `String.prototype.startsWith`). -/
def leadMatch : List Char → List Char → Bool
  | [], _ => true
  | _ :: _, [] => false
  | a :: as, b :: bs => a == b && leadMatch as bs

/-- Models `needle` occurs contiguously somewhere in `hay`. -/
def subSeqAt (needle : List Char) : List Char → Bool
  | [] => needle.isEmpty
  | c :: rest => leadMatch needle (c :: rest) || subSeqAt needle (c :: rest).tail

/-- JavaScript `s.includes(sub)`: contiguous substring test. -/
def jsIncludes (s sub : String) : Bool :=
  subSeqAt sub.toList s.toList

/-- ASCII lowercasing of one character (JavaScript toLowerCase,
restricted to the ASCII range; kernel-reducible). -/
def lowerChar (c : Char) : Char :=
  if 'A' ≤ c ∧ c ≤ 'Z' then Char.ofNat (c.toNat + 32) else c

/-- Models `s.toLowerCase()`. -/
def lowerStr (s : String) : String :=
  String.mk (s.toList.map lowerChar)

/-- Whitespace as stripped by trim. -/
def isWhiteChar (c : Char) : Bool :=
  c == ' ' || c == '\t' || c == '\n' || c == '\r'

/-- Models `s.trim()`: strip leading and trailing whitespace. -/
def trimStr (s : String) : String :=
  String.mk
    (((s.toList.dropWhile isWhiteChar).reverse.dropWhile isWhiteChar).reverse)

/-- The query normalisation, trim then lowercase
(script.js lines 159, 283). -/
def normalizeQuery (raw : String) : String :=
  lowerStr (trimStr raw)

/-- The visibility check shared by both renderers (script.js
lines 164-167 and 297-299): `unlocked = gmMode ? (stored unlock) : true;
skip when !unlocked && !isGM`, i.e. keep when `unlocked || isGM`. -/
def entryVisible (store : Store) (isGM : Bool) (e : Entry) : Bool :=
  let isGMOnly := e.gmMode
  let unlocked := if isGMOnly then isUnlocked store e.id else true
  unlocked || isGM

/-- The category-list text match (script.js lines 169-171): name or
description (empty string when absent), both lowercased. -/
def entryTextMatch (q : String) (e : Entry) : Bool :=
  jsIncludes (lowerStr e.name) q ||
  jsIncludes (lowerStr (e.description.getD "")) q

/-- The global-search text match (script.js lines 301-304): name,
description or category, all lowercased. -/
def globalTextMatch (q : String) (e : Entry) : Bool :=
  jsIncludes (lowerStr e.name) q ||
  jsIncludes (lowerStr (e.description.getD "")) q ||
  jsIncludes (lowerStr e.category) q

/-- The entry rows produced by `renderListForActiveCategory`
(script.js lines 159-213): skip invisible entries, then skip
non-matching ones when the query is non-empty. -/
def renderListForActiveCategory
    (entries : List Entry) (store : Store) (isGM : Bool) (raw : String) :
    List Entry :=
  let q := normalizeQuery raw
  entries.filter (fun e =>
    entryVisible store isGM e && (q == "" || entryTextMatch q e))

/-- The entry rows produced by `renderGlobalSearchResults`
(script.js lines 283-326): an empty trimmed query short-circuits to the
placeholder screen (no rows); otherwise visible, text-matching entries. -/
def renderGlobalSearchResults
    (entries : List Entry) (store : Store) (isGM : Bool) (raw : String) :
    List Entry :=
  let q := normalizeQuery raw
  if q == "" then []
  else entries.filter (fun e => entryVisible store isGM e && globalTextMatch q e)

/-- Visibility resolution alone, with no search filtering: the sequence
of entries that pass the visibility rule, in input order. -/
def visibilityResolve (entries : List Entry) (store : Store) (isGM : Bool) :
    List Entry :=
  entries.filter (entryVisible store isGM)

/-! ## JSON values

Documents obtained from `JSON.parse` (via `fetchJson`) and from the
persisted destiny blobs. `num` carries a finite number as a rational
(`Number.isFinite` holds exactly for `num`); `inf` covers the infinite
results JSON.parse can produce from out-of-range literals. -/

inductive JVal where
  | null
  | bool (b : Bool)
  | num (q : ℚ)
  | inf (neg : Bool)
  | str (s : String)
  | arr (elems : List JVal)
  | obj (fields : List (String × JVal))

/-- JavaScript truthiness of a parsed JSON value (`NaN` cannot arise
from `JSON.parse`; objects and arrays are always truthy). -/
def jsTruthy : JVal → Bool
  | .null => false
  | .bool b => b
  | .num q => !(q == 0)
  | .inf _ => true
  | .str s => !(s == "")
  | .arr _ => true
  | .obj _ => true

/-- Property read `v.k`: a field of an object, `none` (undefined)
otherwise. -/
def jsGetField (v : JVal) (k : String) : Option JVal :=
  match v with
  | .obj fields => (List.find? (fun p => p.1 == k) fields).map (fun p => p.2)
  | _ => none

/-- Truthiness of a possibly-undefined value (`undefined` is falsy). -/
def jsTruthyOpt : Option JVal → Bool
  | none => false
  | some v => jsTruthy v

/-- Replace or append a field binding in the field list of an object. -/
def setField (fields : List (String × JVal)) (k : String) (x : JVal) :
    List (String × JVal) :=
  match fields with
  | [] => [(k, x)]
  | p :: rest => if p.1 == k then (k, x) :: rest else p :: setField rest k x

/-- Property write `v.k = x`: updates an object; on a primitive it is
silently dropped (the script is sloppy-mode). Named string properties
on arrays are not representable here; no claim depends on them. -/
def jsSetField (v : JVal) (k : String) (x : JVal) : JVal :=
  match v with
  | .obj fields => .obj (setField fields k x)
  | other => other

/-- Decimal rendering of a finite number for string interpolation.
Integral values match JavaScript exactly; non-integral values are
rendered as num/den, an approximation no claim depends on. -/
def ratToString (q : ℚ) : String :=
  if q.den == 1 then toString q.num
  else toString q.num ++ "/" ++ toString q.den

/-- JavaScript string coercion of a parsed JSON value, as performed by
the template literal building the entry path. -/
def jsToString : JVal → String
  | .null => "null"
  | .bool true => "true"
  | .bool false => "false"
  | .num q => ratToString q
  | .inf true => "-Infinity"
  | .inf false => "Infinity"
  | .str s => s
  | .arr xs => String.intercalate "," (xs.map jsToStringShallow)
  | .obj _ => "[object Object]"
where
  /-- One level deep suffices for the coercions that can actually reach
  the path interpolation in this model. -/
  jsToStringShallow : JVal → String
  | .null => ""
  | .bool true => "true"
  | .bool false => "false"
  | .num q => ratToString q
  | .inf true => "-Infinity"
  | .inf false => "Infinity"
  | .str s => s
  | .arr _ => ""
  | .obj _ => "[object Object]"

/-! ## Entry repository (`fetchJson` / `loadCategoryEntries`) -/

/-- The reachable static-file universe: what `fetchJson(path)` resolves
to. `none` models every failure `fetchJson` maps to `null` — a network
error, a non-ok response, or invalid JSON (script.js lines 47-56). -/
abbrev FetchWorld := String → Option JVal

/-- Per-category cache of loaded entry collections (`const cache = {}`,
script.js line 34). A present (even empty) array is truthy, so any
stored collection is a cache hit. -/
abbrev Cache := List (String × List JVal)

/-- Models `cache[category]` read. -/
def cacheGet (c : Cache) (category : String) : Option (List JVal) :=
  (List.find? (fun p => p.1 == category) c).map (fun p => p.2)

/-- Models `cache[category] = entries`. -/
def cachePut (c : Cache) (category : String) (entries : List JVal) : Cache :=
  List.filter (fun p => !(p.1 == category)) c ++ [(category, entries)]

/-- Models `entries/<category>/manifest.json` (script.js line 62). -/
def manifestPath (category : String) : String :=
  "entries/" ++ category ++ "/manifest.json"

/-- Models `Array.isArray(files) ? files : nothing`: the file list of the manifest,
when the fetched manifest is an array (script.js line 64). -/
def manifestFiles : Option JVal → Option (List JVal)
  | some (.arr files) => some files
  | _ => none

/-- Models `file.replace(/\.[^\x2f.]+$/, "")` (script.js line 79): strip a final
extension — a last dot followed by at least one character that is
neither a dot nor a slash, at the end of the string. -/
def stripExt (s : String) : String :=
  let r := s.toList.reverse
  let ext := r.takeWhile (fun c => !(c == '.') && !(c == '/'))
  match r.drop ext.length with
  | '.' :: rest => if ext.isEmpty then s else String.mk rest.reverse
  | _ => s

/-- The per-document assembly (script.js lines 78-82): default the id
from the filename when absent (this calls the string method `replace`
on the manifest element — a `TypeError`, modelled as `.error`, when the
element is not a string and the document lacks a truthy id), then
inject the category. -/
def buildEntry (category : String) (file : JVal) (data : JVal) :
    Except Unit JVal :=
  if jsTruthyOpt (jsGetField data "id") then
    .ok (jsSetField data "category" (.str category))
  else
    match file with
    | .str s =>
        .ok (jsSetField (jsSetField data "id" (.str (stripExt s)))
              "category" (.str category))
    | _ => .error ()

/-- The manifest loop of `loadCategoryEntries` (script.js lines 70-83):
fetch each listed document, skip falsy results, assemble the rest. -/
def loadEntriesLoop (world : FetchWorld) (category : String) :
    List JVal → Except Unit (List JVal)
  | [] => .ok []
  | file :: rest =>
    let path := "entries/" ++ category ++ "/" ++ jsToString file
    match world path with
    | none => loadEntriesLoop world category rest
    | some data =>
      if jsTruthy data then do
        let e ← buildEntry category file data
        let es ← loadEntriesLoop world category rest
        .ok (e :: es)
      else loadEntriesLoop world category rest

/-- Models `loadCategoryEntries` (script.js lines 59-86): cached collections
are returned as-is; a missing or non-array manifest caches and returns
the empty collection; otherwise the manifest loop runs and its result
is cached. `.error` models an uncaught exception escaping the
function. -/
def loadCategoryEntries (world : FetchWorld) (cache : Cache)
    (category : String) : Except Unit (List JVal × Cache) :=
  match cacheGet cache category with
  | some es => .ok (es, cache)
  | none =>
    match manifestFiles (world (manifestPath category)) with
    | some files => do
        let es ← loadEntriesLoop world category files
        .ok (es, cachePut cache category es)
    | none => .ok ([], cachePut cache category [])

/-! ## Destiny pool state machine -/

/-- Models `destinyState`: the two token counters. Rationals model JavaScript
finite numbers: the loader accepts any stored finite number, so the
fields are not constrained to naturals a priori. -/
structure DState where
  light : ℚ
  dark : ℚ
deriving DecidableEq, Repr

/-- Models `Number.isFinite(x) ? x : 0` applied to a possibly-undefined
property (script.js lines 360-361). -/
def finiteOr0 : Option JVal → ℚ
  | some (.num q) => q
  | _ => 0

/-- Models `loadDestinyState` (script.js lines 354-366). The argument is the
parsed stored blob: `none` models an absent/empty stored string or one
on which `JSON.parse` throws (both land on `{light:0, dark:0}`);
property access on a parsed `null` throws and is caught the same way. -/
def loadDestinyState (stored : Option JVal) : DState :=
  match stored with
  | none => ⟨0, 0⟩
  | some .null => ⟨0, 0⟩
  | some v => ⟨finiteOr0 (jsGetField v "light"), finiteOr0 (jsGetField v "dark")⟩

/-- Modelled from the words of the spec only, for comparison with
`loadDestinyState`: each field independently is "taken from the stored
value when it is a finite number and reset to 0 otherwise". -/
def specLoadField (stored : Option JVal) (k : String) : ℚ :=
  match stored with
  | none => 0
  | some v =>
    match jsGetField v k with
    | some (.num q) => q
    | _ => 0

/-- Models `loadDestinyLog` (script.js lines 368-377): a stored array is kept
as-is (whatever its elements), everything else loads as `[]`. -/
def loadDestinyLog (stored : Option JVal) : List JVal :=
  match stored with
  | some (.arr xs) => xs
  | _ => []

/-- The whole mutable world the destiny handlers touch: the in-memory
state and log plus the two persisted slots (stored here as parsed
values; `none` = absent). -/
structure DWorld where
  state : DState
  log : List JVal
  poolSlot : Option JVal
  logSlot : Option JVal

/-- Models `JSON.stringify(destinyState)`, kept in parsed form. -/
def stateToJVal (s : DState) : JVal :=
  .obj [("light", .num s.light), ("dark", .num s.dark)]

/-- Models `saveDestinyState` (script.js lines 379-383). -/
def saveDestinyState (w : DWorld) : DWorld :=
  { w with poolSlot := some (stateToJVal w.state) }

/-- Models `saveDestinyLog` (script.js lines 385-389). -/
def saveDestinyLog (w : DWorld) : DWorld :=
  { w with logSlot := some (.arr w.log) }

/-- The formatted log line `[time] text` (script.js line 394). -/
def logLine (time text : String) : String :=
  "[" ++ time ++ "] " ++ text

/-- The list-level core of `addDestinyLogEntry` (script.js
lines 394-395): unshift the new line, then truncate to 50 when the
length exceeds 50. -/
def destinyLogInsert (time text : String) (log : List JVal) : List JVal :=
  let log2 := JVal.str (logLine time text) :: log
  if log2.length > 50 then log2.take 50 else log2

/-- Models `addDestinyLogEntry` (script.js lines 391-397): insert, then persist
the log. `time` stands for the wall-clock timestamp string. -/
def addDestinyLogEntry (time text : String) (w : DWorld) : DWorld :=
  saveDestinyLog { w with log := destinyLogInsert time text w.log }

/-- The `addLight` click handler (script.js lines 499-504). -/
def addLight (time : String) (w : DWorld) : DWorld :=
  let w1 := { w with state := { w.state with light := w.state.light + 1 } }
  addDestinyLogEntry time "Added one Light Side token." (saveDestinyState w1)

/-- The `removeLight` click handler (script.js lines 506-513). -/
def removeLight (time : String) (w : DWorld) : DWorld :=
  if w.state.light > 0 then
    let w1 := { w with state := { w.state with light := w.state.light - 1 } }
    addDestinyLogEntry time "Removed one Light Side token." (saveDestinyState w1)
  else w

/-- The `addDark` click handler (script.js lines 515-520). -/
def addDark (time : String) (w : DWorld) : DWorld :=
  let w1 := { w with state := { w.state with dark := w.state.dark + 1 } }
  addDestinyLogEntry time "Added one Dark Side token." (saveDestinyState w1)

/-- The `removeDark` click handler (script.js lines 522-529). -/
def removeDark (time : String) (w : DWorld) : DWorld :=
  if w.state.dark > 0 then
    let w1 := { w with state := { w.state with dark := w.state.dark - 1 } }
    addDestinyLogEntry time "Removed one Dark Side token." (saveDestinyState w1)
  else w

/-- The `flipLightToDark` click handler (script.js lines 531-539). -/
def flipLightToDark (time : String) (w : DWorld) : DWorld :=
  if w.state.light > 0 then
    let w1 := { w with
      state := { light := w.state.light - 1, dark := w.state.dark + 1 } }
    addDestinyLogEntry time "Flipped one Light Side token to Dark."
      (saveDestinyState w1)
  else w

/-- The `flipDarkToLight` click handler (script.js lines 541-549). -/
def flipDarkToLight (time : String) (w : DWorld) : DWorld :=
  if w.state.dark > 0 then
    let w1 := { w with
      state := { light := w.state.light + 1, dark := w.state.dark - 1 } }
    addDestinyLogEntry time "Flipped one Dark Side token to Light."
      (saveDestinyState w1)
  else w

/-- The `resetDestiny` click handler (script.js lines 551-556). -/
def resetDestiny (time : String) (w : DWorld) : DWorld :=
  addDestinyLogEntry time "Reset Destiny Pool."
    (saveDestinyState { w with state := ⟨0, 0⟩ })

/-- The two sides of the pool. -/
inductive Side where
  | light
  | dark
deriving DecidableEq, Repr

/-- The opposite side. -/
def Side.other : Side → Side
  | .light => .dark
  | .dark => .light

/-- Read the named counter. -/
def counterOf (s : DState) : Side → ℚ
  | .light => s.light
  | .dark => s.dark

/-- Models `removeToken(side)`: dispatch to the matching click handler. -/
def removeToken (side : Side) (time : String) (w : DWorld) : DWorld :=
  match side with
  | .light => removeLight time w
  | .dark => removeDark time w

/-- Models `flip(fromSide, toSide)`: the code wires exactly the two flips whose
target is the opposite side; dispatch on the source side. -/
def flipFrom (side : Side) (time : String) (w : DWorld) : DWorld :=
  match side with
  | .light => flipLightToDark time w
  | .dark => flipDarkToLight time w

/-- One destiny-pool button press (with its timestamp string). -/
inductive DOp where
  | addLight (t : String)
  | removeLight (t : String)
  | addDark (t : String)
  | removeDark (t : String)
  | flipLightToDark (t : String)
  | flipDarkToLight (t : String)
  | reset (t : String)

/-- Apply one button press. -/
def applyOp : DOp → DWorld → DWorld
  | .addLight t, w => addLight t w
  | .removeLight t, w => removeLight t w
  | .addDark t, w => addDark t w
  | .removeDark t, w => removeDark t w
  | .flipLightToDark t, w => flipLightToDark t w
  | .flipDarkToLight t, w => flipDarkToLight t w
  | .reset t, w => resetDestiny t w

/-- Run a sequence of button presses. -/
def runOps : List DOp → DWorld → DWorld
  | [], w => w
  | op :: rest, w => runOps rest (applyOp op w)

/-- Page-load initialisation (script.js lines 40-41): load state and log
from the two stored blobs, which remain in their slots. -/
def initDestinyWorld (pool logBlob : Option JVal) : DWorld :=
  ⟨loadDestinyState pool, loadDestinyLog logBlob, pool, logBlob⟩

/-- Both counters are non-negative integers (the declared type that the spec gives
the pool fields). -/
def CounterNN (s : DState) : Prop :=
  (∃ n : ℕ, s.light = (n : ℚ)) ∧ (∃ m : ℕ, s.dark = (m : ℚ))

/-! ## Store lemmas -/

/-- Reading a cons cell: hit the head key or recurse. -/
theorem getItem_cons (p : String × String) (l : Store) (k : String) :
    getItem (p :: l) k = if p.1 == k then some p.2 else getItem l k := by
  simp only [getItem, List.find?]
  cases hpk : p.1 == k <;> simp [hpk]

/-- Removing from a cons cell: drop the head or keep it and recurse. -/
theorem removeItem_cons (p : String × String) (l : Store) (k : String) :
    removeItem (p :: l) k =
      if p.1 == k then removeItem l k else p :: removeItem l k := by
  simp only [removeItem, List.filter_cons]
  cases hpk : p.1 == k <;> simp [hpk]

/-- Reading a key just removed yields nothing. -/
theorem getItem_removeItem_self (s : Store) (k : String) :
    getItem (removeItem s k) k = none := by
  induction s with
  | nil => rfl
  | cons p rest ih =>
      rw [removeItem_cons]
      by_cases h : p.1 = k
      · simpa [h] using ih
      · simpa [h, getItem_cons] using ih

/-- Reading a key just written yields the written value. -/
theorem getItem_setItem_self (s : Store) (k v : String) :
    getItem (setItem s k v) k = some v := by
  induction s with
  | nil => simp [setItem, removeItem, getItem_cons, getItem]
  | cons p rest ih =>
      simp only [setItem] at ih ⊢
      rw [removeItem_cons]
      by_cases h : p.1 = k
      · simpa [h] using ih
      · simpa [h, List.cons_append, getItem_cons] using ih

/-- Removing a key twice is the same as removing it once. -/
theorem removeItem_removeItem_self (s : Store) (k : String) :
    removeItem (removeItem s k) k = removeItem s k := by
  simp [removeItem, List.filter_filter]

/-- Writing the same binding twice is the same as writing it once. -/
theorem setItem_setItem_self (s : Store) (k v : String) :
    setItem (setItem s k v) k v = setItem s k v := by
  simp [setItem, removeItem, List.filter_append, List.filter_filter]

/-! ## Claims about the unlock toggle -/

/-- C9: setting unlocked=false removes the per-entry key entirely, so a
subsequent read reports locked exactly as for a never-set key; setting
unlocked=true stores the literal string "true" under the key; repeated
identical calls leave the store unchanged (idempotent). -/
theorem setUnlocked_canonical (store : Store) (id : String) :
    getItem (setUnlocked store id false) (lsKey id) = none ∧
    isUnlocked (setUnlocked store id false) id = false ∧
    isUnlocked ([] : Store) id = false ∧
    getItem (setUnlocked store id true) (lsKey id) = some "true" ∧
    isUnlocked (setUnlocked store id true) id = true ∧
    (∀ b : Bool, setUnlocked (setUnlocked store id b) id b =
      setUnlocked store id b) := by
  refine ⟨?_, ?_, rfl, ?_, ?_, ?_⟩
  · simpa [setUnlocked] using getItem_removeItem_self store (lsKey id)
  · simp [isUnlocked, setUnlocked, getItem_removeItem_self]
  · simpa [setUnlocked] using getItem_setItem_self store (lsKey id) "true"
  · simp [isUnlocked, setUnlocked, getItem_setItem_self]
  · intro b
    cases b
    · simpa [setUnlocked] using removeItem_removeItem_self store (lsKey id)
    · simpa [setUnlocked] using setItem_setItem_self store (lsKey id) "true"

/-! ## Claims about the visibility & search resolver -/

/-- C1: the visibility rule used by both renderers — an entry with
gmMode=false is always visible; an entry with gmMode=true is visible
iff the stored unlock check reports it unlocked or the GM flag is set;
and each renderer includes only visibility-passing entries. -/
theorem visibility_rule (store : Store) (g : Bool) (e : Entry) :
    (e.gmMode = false → entryVisible store g e = true) ∧
    (e.gmMode = true →
      (entryVisible store g e = true ↔
        (isUnlocked store e.id = true ∨ g = true))) ∧
    (∀ entries raw,
      e ∈ renderListForActiveCategory entries store g raw →
      entryVisible store g e = true) ∧
    (∀ entries raw,
      e ∈ renderGlobalSearchResults entries store g raw →
      entryVisible store g e = true) := by
  refine ⟨?_, ?_, ?_, ?_⟩
  · intro h; simp [entryVisible, h]
  · intro h; simp [entryVisible, h, Bool.or_eq_true]
  · intro entries raw hmem
    have h2 := (List.mem_filter.mp hmem).2
    simp only [Bool.and_eq_true] at h2
    exact h2.1
  · intro entries raw hmem
    unfold renderGlobalSearchResults at hmem
    by_cases hq : normalizeQuery raw == ""
    · simp [hq] at hmem
    · simp only [hq, Bool.false_eq_true, not_false_eq_true,
        ite_false] at hmem
      have h2 := (List.mem_filter.mp hmem).2
      simp only [Bool.and_eq_true] at h2
      exact h2.1

/-- Closed instance of the C1 theorem at a concrete GM-only entry. -/
theorem visibility_rule_witness :
    entryVisible [] true ⟨"vader", "Vader", none, true, "characters"⟩ = true :=
  ((visibility_rule [] true ⟨"vader", "Vader", none, true, "characters"⟩).2.1
    rfl).mpr (Or.inr rfl)

/-- C2: with a non-empty normalised query, each renderer includes a
given entry iff it passes visibility and the lowercased query occurs as
a plain substring of the lowercased name or description (with the
lowercased category as an extra candidate in the global variant), and
each result is a sublist of the input (original order, no re-sorting). -/
theorem search_substring_rule (entries : List Entry) (store : Store)
    (g : Bool) (raw : String) (h : normalizeQuery raw ≠ "") :
    (∀ e, e ∈ renderListForActiveCategory entries store g raw ↔
      (e ∈ entries ∧ entryVisible store g e = true ∧
        entryTextMatch (normalizeQuery raw) e = true)) ∧
    (∀ e, e ∈ renderGlobalSearchResults entries store g raw ↔
      (e ∈ entries ∧ entryVisible store g e = true ∧
        globalTextMatch (normalizeQuery raw) e = true)) ∧
    List.Sublist (renderListForActiveCategory entries store g raw) entries ∧
    List.Sublist (renderGlobalSearchResults entries store g raw) entries := by
  have hq : (normalizeQuery raw == "") = false := by simpa using h
  refine ⟨?_, ?_, ?_, ?_⟩
  · intro e
    simp [renderListForActiveCategory, List.mem_filter, hq, and_assoc]
  · intro e
    simp [renderGlobalSearchResults, hq, List.mem_filter, and_assoc]
  · exact List.filter_sublist entries
  · simp only [renderGlobalSearchResults, hq, Bool.false_eq_true,
      not_false_eq_true, ite_false]
    exact List.filter_sublist entries

/-- Closed instance of the C2 theorem: a concrete entry matched by the
query Sky (normalised to sky) inside its name. -/
theorem search_substring_rule_witness :
    (⟨"luke", "Luke Skywalker", some "Jedi Knight", false, "characters"⟩ :
      Entry) ∈
      renderListForActiveCategory
        [⟨"luke", "Luke Skywalker", some "Jedi Knight", false, "characters"⟩]
        [] false " Sky " :=
  ((search_substring_rule
      [⟨"luke", "Luke Skywalker", some "Jedi Knight", false, "characters"⟩]
      [] false " Sky " (by decide)).1 _).mpr
    ⟨List.mem_singleton.mpr rfl, by decide, by decide⟩

/-- C3 counterexample: with an empty query the global variant renders
the placeholder screen and returns no entries, while visibility
resolution alone keeps the (visible) entry — so the empty-query claim
fails for the cross-category variant. -/
theorem empty_query_global_counterexample :
    renderGlobalSearchResults
        [⟨"luke", "Luke", none, false, "characters"⟩] [] false "" ≠
      visibilityResolve
        [⟨"luke", "Luke", none, false, "characters"⟩] [] false ∧
    renderGlobalSearchResults
        [⟨"luke", "Luke", none, false, "characters"⟩] [] false "" = [] ∧
    visibilityResolve
        [⟨"luke", "Luke", none, false, "characters"⟩] [] false =
      [⟨"luke", "Luke", none, false, "characters"⟩] := by
  refine ⟨by decide, rfl, rfl⟩

/-- C3 (amended): with an empty normalised query the single-category
renderer returns exactly the visibility-resolved sequence in order,
while the global renderer short-circuits and returns no entries. -/
theorem empty_query_resolution (entries : List Entry) (store : Store)
    (g : Bool) (raw : String) (h : normalizeQuery raw = "") :
    renderListForActiveCategory entries store g raw =
      visibilityResolve entries store g ∧
    renderGlobalSearchResults entries store g raw = [] := by
  constructor
  · simp [renderListForActiveCategory, visibilityResolve, h]
  · simp [renderGlobalSearchResults, h]

/-- Closed instance of the amended C3 theorem at a whitespace-only
query. -/
theorem empty_query_resolution_witness :
    renderListForActiveCategory
        [⟨"r2", "R2-D2", some "droid", false, "items"⟩] [] false "   " =
      visibilityResolve [⟨"r2", "R2-D2", some "droid", false, "items"⟩]
        [] false ∧
    renderGlobalSearchResults
        [⟨"r2", "R2-D2", some "droid", false, "items"⟩] [] false "   " = [] :=
  empty_query_resolution [⟨"r2", "R2-D2", some "droid", false, "items"⟩]
    [] false "   " (by decide)

/-! ## Claims about the destiny pool -/

/-- The log-append and persistence wrappers leave the counters alone. -/
theorem state_after_wrappers (t text : String) (w : DWorld) :
    (addDestinyLogEntry t text (saveDestinyState w)).state = w.state := rfl

/-- C4: on a zero counter, removeToken and the flip out of that side
are exact no-ops — same counters, same log, same persisted slots; on a
positive counter, the flip decrements its source side and increments
the opposite side in one step. -/
theorem zero_counter_guard (side : Side) (time : String) (w : DWorld) :
    (counterOf w.state side = 0 →
      removeToken side time w = w ∧ flipFrom side time w = w) ∧
    (0 < counterOf w.state side →
      counterOf (flipFrom side time w).state side =
        counterOf w.state side - 1 ∧
      counterOf (flipFrom side time w).state side.other =
        counterOf w.state side.other + 1) := by
  cases side
  case light =>
    refine ⟨fun h => ⟨?_, ?_⟩, fun h => ⟨?_, ?_⟩⟩
    · simp only [counterOf] at h
      simp [removeToken, removeLight, h]
    · simp only [counterOf] at h
      simp [flipFrom, flipLightToDark, h]
    · simp only [counterOf] at h ⊢
      simp [flipFrom, flipLightToDark, h, addDestinyLogEntry,
        saveDestinyLog, saveDestinyState]
    · simp only [counterOf, Side.other] at h ⊢
      simp [flipFrom, flipLightToDark, h, addDestinyLogEntry,
        saveDestinyLog, saveDestinyState, Side.other]
  case dark =>
    refine ⟨fun h => ⟨?_, ?_⟩, fun h => ⟨?_, ?_⟩⟩
    · simp only [counterOf] at h
      simp [removeToken, removeDark, h]
    · simp only [counterOf] at h
      simp [flipFrom, flipDarkToLight, h]
    · simp only [counterOf] at h ⊢
      simp [flipFrom, flipDarkToLight, h, addDestinyLogEntry,
        saveDestinyLog, saveDestinyState]
    · simp only [counterOf, Side.other] at h ⊢
      simp [flipFrom, flipDarkToLight, h, addDestinyLogEntry,
        saveDestinyLog, saveDestinyState, Side.other]

/-- Closed instance of the C4 theorem: pressing remove or flip on a
zero light counter changes nothing at all. -/
theorem zero_counter_guard_witness :
    removeToken Side.light "21:00" ⟨⟨0, 2⟩, [], none, none⟩ =
      ⟨⟨0, 2⟩, [], none, none⟩ ∧
    flipFrom Side.light "21:00" ⟨⟨0, 2⟩, [], none, none⟩ =
      ⟨⟨0, 2⟩, [], none, none⟩ :=
  (zero_counter_guard Side.light "21:00" ⟨⟨0, 2⟩, [], none, none⟩).1 rfl

/-- C5: every insertion leaves the log with at most 50 lines, puts the
new formatted line at index 0, and keeps the result a front segment of
the new-line-then-old-log sequence (so only tail entries are ever
discarded). -/
theorem destiny_log_cap (time text : String) (log : List JVal) :
    (destinyLogInsert time text log).length ≤ 50 ∧
    (destinyLogInsert time text log).head? =
      some (JVal.str (logLine time text)) ∧
    (JVal.str (logLine time text) :: log).take
        (destinyLogInsert time text log).length =
      destinyLogInsert time text log := by
  simp only [destinyLogInsert]
  by_cases h : (JVal.str (logLine time text) :: log).length > 50
  · rw [if_pos h]
    refine ⟨?_, ?_, ?_⟩
    · simp [List.length_take]
    · rw [show (50 : ℕ) = 49 + 1 from rfl, List.take_succ_cons,
        List.head?_cons]
    · have hlen : (List.take 50 (JVal.str (logLine time text) :: log)).length
          = 50 := by
        simp only [List.length_take]
        omega
      rw [hlen]
  · rw [if_neg h]
    exact ⟨by omega, rfl, List.take_length _⟩

/-- C10: a flip in either direction preserves the total token count,
whether it fires or no-ops on a zero source counter. -/
theorem flip_preserves_total (side : Side) (time : String) (w : DWorld) :
    (flipFrom side time w).state.light + (flipFrom side time w).state.dark =
      w.state.light + w.state.dark := by
  cases side <;>
    simp only [flipFrom, flipLightToDark, flipDarkToLight] <;>
    split <;>
    simp [addDestinyLogEntry, saveDestinyLog, saveDestinyState]

/-- Each button press preserves "both counters are non-negative
integers". -/
theorem applyOp_preserves_nn (op : DOp) (w : DWorld)
    (h : CounterNN w.state) : CounterNN (applyOp op w).state := by
  obtain ⟨⟨n, hn⟩, ⟨m, hm⟩⟩ := h
  cases op with
  | addLight t =>
      refine ⟨⟨n + 1, ?_⟩, ⟨m, ?_⟩⟩ <;>
        simp [applyOp, addLight, addDestinyLogEntry, saveDestinyLog,
          saveDestinyState, hn, hm]
  | addDark t =>
      refine ⟨⟨n, ?_⟩, ⟨m + 1, ?_⟩⟩ <;>
        simp [applyOp, addDark, addDestinyLogEntry, saveDestinyLog,
          saveDestinyState, hn, hm]
  | removeLight t =>
      simp only [applyOp, removeLight]
      split
      · next hpos =>
          have hn1 : 1 ≤ n := by
            rw [hn] at hpos
            exact_mod_cast hpos
          refine ⟨⟨n - 1, ?_⟩, ⟨m, ?_⟩⟩ <;>
            simp [addDestinyLogEntry, saveDestinyLog, saveDestinyState,
              hn, hm]
          push_cast [hn1]
          ring
      · exact ⟨⟨n, hn⟩, ⟨m, hm⟩⟩
  | removeDark t =>
      simp only [applyOp, removeDark]
      split
      · next hpos =>
          have hm1 : 1 ≤ m := by
            rw [hm] at hpos
            exact_mod_cast hpos
          refine ⟨⟨n, ?_⟩, ⟨m - 1, ?_⟩⟩ <;>
            simp [addDestinyLogEntry, saveDestinyLog, saveDestinyState,
              hn, hm]
          push_cast [hm1]
          ring
      · exact ⟨⟨n, hn⟩, ⟨m, hm⟩⟩
  | flipLightToDark t =>
      simp only [applyOp, flipLightToDark]
      split
      · next hpos =>
          have hn1 : 1 ≤ n := by
            rw [hn] at hpos
            exact_mod_cast hpos
          refine ⟨⟨n - 1, ?_⟩, ⟨m + 1, ?_⟩⟩ <;>
            simp [addDestinyLogEntry, saveDestinyLog, saveDestinyState,
              hn, hm]
          push_cast [hn1]
          ring
      · exact ⟨⟨n, hn⟩, ⟨m, hm⟩⟩
  | flipDarkToLight t =>
      simp only [applyOp, flipDarkToLight]
      split
      · next hpos =>
          have hm1 : 1 ≤ m := by
            rw [hm] at hpos
            exact_mod_cast hpos
          refine ⟨⟨n + 1, ?_⟩, ⟨m - 1, ?_⟩⟩ <;>
            simp [addDestinyLogEntry, saveDestinyLog, saveDestinyState,
              hn, hm]
          push_cast [hm1]
          ring
      · exact ⟨⟨n, hn⟩, ⟨m, hm⟩⟩
  | reset t =>
      refine ⟨⟨0, ?_⟩, ⟨0, ?_⟩⟩ <;>
        simp [applyOp, resetDestiny, addDestinyLogEntry, saveDestinyLog,
          saveDestinyState]

/-- C6 (amended): every state reachable by button presses from an
initial state whose counters are non-negative integers — in particular
from the zero state a missing or unparseable blob loads to — keeps both
counters non-negative integers. (Loading alone does not establish the
property: any stored finite number is accepted verbatim.) -/
theorem destiny_reachable_nonneg (ops : List DOp) (w : DWorld)
    (h : CounterNN w.state) : CounterNN (runOps ops w).state := by
  induction ops generalizing w with
  | nil => exact h
  | cons op rest ih => exact ih _ (applyOp_preserves_nn op w h)

/-- Closed instance of the amended C6 theorem: two presses from the
default-loaded world. -/
theorem destiny_reachable_nonneg_witness :
    CounterNN (runOps [DOp.addLight "09:00", DOp.flipLightToDark "09:01"]
      (initDestinyWorld none none)).state :=
  destiny_reachable_nonneg
    [DOp.addLight "09:00", DOp.flipLightToDark "09:01"]
    (initDestinyWorld none none)
    ⟨⟨0, by simp [initDestinyWorld, loadDestinyState]⟩,
     ⟨0, by simp [initDestinyWorld, loadDestinyState]⟩⟩

/-- C6 counterexample: a stored blob whose light field is the finite
number -3 loads verbatim, so the loaded (reachable, empty press
sequence) state has a negative light counter — the claim that every
reachable state has non-negative integer counters fails. -/
theorem destiny_nonneg_counterexample :
    (runOps []
      (initDestinyWorld
        (some (.obj [("light", .num (-3)), ("dark", .num 0)]))
        none)).state.light < 0 := by
  decide

/-- The inner finite-number check of the spec-modelled loader agrees
with the one transcribed from the code. -/
theorem spec_field_match (v : JVal) (k : String) :
    specLoadField (some v) k = finiteOr0 (jsGetField v k) := by
  cases hx : jsGetField v k with
  | none => simp [specLoadField, hx, finiteOr0]
  | some x => cases x <;> simp [specLoadField, hx, finiteOr0]

/-- C7: loading the persisted pool recovers per field — each counter is
the stored value exactly when that value is a finite number and 0
otherwise, independently of the other field; the mixed blob with
light="x", dark=3 loads as (0, 3); a missing or unparseable blob loads
as (0, 0). -/
theorem load_destiny_per_field (stored : Option JVal) :
    loadDestinyState stored =
      ⟨specLoadField stored "light", specLoadField stored "dark"⟩ ∧
    loadDestinyState
        (some (.obj [("light", .str "x"), ("dark", .num 3)])) = ⟨0, 3⟩ ∧
    loadDestinyState none = ⟨0, 0⟩ := by
  refine ⟨?_, rfl, rfl⟩
  cases stored with
  | none => rfl
  | some v =>
      rw [spec_field_match, spec_field_match]
      cases v <;> rfl

/-! ## Claims about the entry repository -/

/-- Assembling a document whose manifest entry is a string never
throws. -/
theorem buildEntry_str_ok (category s : String) (data : JVal) :
    ∃ e, buildEntry category (.str s) data = .ok e := by
  unfold buildEntry
  split
  · exact ⟨_, rfl⟩
  · exact ⟨_, rfl⟩

/-- The manifest loop never throws when every manifest element is a
string: failed documents are skipped, the rest are assembled. -/
theorem loadEntriesLoop_strings_ok (world : FetchWorld) (category : String)
    (files : List JVal) (h : ∀ f ∈ files, ∃ s, f = JVal.str s) :
    ∃ es, loadEntriesLoop world category files = .ok es := by
  induction files with
  | nil => exact ⟨[], rfl⟩
  | cons f rest ih =>
      obtain ⟨s, rfl⟩ := h f (List.mem_cons_self f rest)
      obtain ⟨es, hes⟩ := ih (fun g hg => h g (List.mem_cons_of_mem _ hg))
      simp only [loadEntriesLoop]
      cases hw : world ("entries/" ++ category ++ "/" ++
          jsToString (JVal.str s)) with
      | none => exact ⟨es, hes⟩
      | some data =>
          by_cases ht : jsTruthy data
          · obtain ⟨e, he⟩ := buildEntry_str_ok category s data
            refine ⟨e :: es, ?_⟩
            simp only [ht, if_pos, ite_true, he, hes]
            rfl
          · simp only [ht, Bool.false_eq_true, if_neg, ite_false]
            exact ⟨es, hes⟩

/-- C8 (amended): a cached category is returned without touching the
fetch world; a missing or non-array manifest yields the empty
collection and caches it; a manifest all of whose elements are strings
cannot make loadCategoryEntries throw (failing documents are skipped
individually); and a string-named document that fails to fetch is
skipped, the rest of the loop proceeding unchanged. Without the
all-strings proviso the no-throw claim is false (see the
counterexample). -/
theorem load_category_robust (world : FetchWorld) (cache : Cache)
    (category : String) :
    (∀ es, cacheGet cache category = some es →
      ∀ world2 : FetchWorld,
        loadCategoryEntries world2 cache category = .ok (es, cache)) ∧
    (cacheGet cache category = none →
      manifestFiles (world (manifestPath category)) = none →
      loadCategoryEntries world cache category =
        .ok ([], cachePut cache category [])) ∧
    (∀ files, manifestFiles (world (manifestPath category)) = some files →
      (∀ f ∈ files, ∃ s, f = JVal.str s) →
      ∃ r, loadCategoryEntries world cache category = .ok r) ∧
    (∀ s rest, world ("entries/" ++ category ++ "/" ++ s) = none →
      loadEntriesLoop world category (JVal.str s :: rest) =
        loadEntriesLoop world category rest) := by
  refine ⟨?_, ?_, ?_, ?_⟩
  · intro es h world2
    simp [loadCategoryEntries, h]
  · intro h1 h2
    simp [loadCategoryEntries, h1, h2]
  · intro files hm hstr
    cases hc : cacheGet cache category with
    | some es => exact ⟨(es, cache), by simp [loadCategoryEntries, hc]⟩
    | none =>
        obtain ⟨es, hes⟩ := loadEntriesLoop_strings_ok world category files hstr
        refine ⟨(es, cachePut cache category es), ?_⟩
        simp only [loadCategoryEntries, hc, hm, hes]
        rfl
  · intro s rest hw
    simp [loadEntriesLoop, jsToString, hw]

/-- Closed instance of the amended C8 theorem: the manifest lists only
yoda.json, that file 404s, and the category resolves to the empty
collection without an exception. -/
theorem load_category_robust_witness :
    (∃ r, loadCategoryEntries
      (fun p =>
        if p == "entries/characters/manifest.json" then
          some (.arr [.str "yoda.json"])
        else none)
      [] "characters" = .ok r) ∧
    loadCategoryEntries
      (fun p =>
        if p == "entries/characters/manifest.json" then
          some (.arr [.str "yoda.json"])
        else none)
      [] "characters" = .ok ([], [("characters", [])]) := by
  constructor
  · exact (load_category_robust
      (fun p =>
        if p == "entries/characters/manifest.json" then
          some (.arr [.str "yoda.json"])
        else none)
      [] "characters").2.2.1 [.str "yoda.json"] rfl
      (fun f hf => ⟨"yoda.json", by simpa using hf⟩)
  · rfl

/-- C8 counterexample: a manifest array containing a non-string element
(null) whose coerced path fetches a document with no id makes the
filename-to-id fallback call a string method on null — the exception
escapes loadCategoryEntries, refuting "never propagates an
exception". -/
theorem load_category_counterexample :
    loadCategoryEntries
      (fun p =>
        if p == "entries/characters/manifest.json" then some (.arr [.null])
        else if p == "entries/characters/null" then
          some (.obj [("name", .str "Ghost")])
        else none)
      [] "characters" = .error () := rfl
